import Mathlib

/-!
Verification of the snap-grid geometry engine of `src/ui/config.rs`
(the `SnapGrid` type and its snap / enumeration / styling operations).

Coordinates are modelled as exact rationals.  Rust's `f32::round`
(round to nearest, ties away from zero) is modelled by `roundHalfAway`,
`f32::floor` / `f32::ceil` followed by `as i32` by `Int.floor` / `Int.ceil`,
and the numeric literal `0.866_025_4` by the exact decimal `0.8660254 : ℚ`.
The painter is modelled as the list of `circle_filled` commands issued.
-/

/-- Rust `f32::round`: round to the nearest integer, ties away from zero. -/
def roundHalfAway (q : ℚ) : ℤ :=
  if 0 ≤ q then round q else -round (-q)

/-- 2D point, modelling `egui::Pos2` with exact coordinates. -/
structure Pos2 where
  x : ℚ
  y : ℚ
deriving DecidableEq

/-- `Pos2::new`. -/
def Pos2.new (x y : ℚ) : Pos2 := ⟨x, y⟩

/-- Axis-aligned rectangle, modelling `egui::Rect`. -/
structure Rect where
  min : Pos2
  max : Pos2
deriving DecidableEq

/-- `egui::Rect::contains`: inclusive on all four edges. -/
def Rect.contains (r : Rect) (p : Pos2) : Bool :=
  decide (r.min.x ≤ p.x) && decide (p.x ≤ r.max.x) &&
  decide (r.min.y ≤ p.y) && decide (p.y ≤ r.max.y)

/-- `egui::Color32`, modelled by the four components handed to
`from_rgba_unmultiplied`; the claims only inspect the alpha channel and
value identity, so the premultiplied internal encoding is not modelled. -/
structure Color32 where
  r : ℕ
  g : ℕ
  b : ℕ
  a : ℕ
deriving DecidableEq

/-- `Color32::from_rgba_unmultiplied`. -/
def Color32.from_rgba_unmultiplied (r g b a : ℕ) : Color32 := ⟨r, g, b, a⟩

/-- `egui::Stroke`. -/
structure Stroke where
  width : ℚ
  color : Color32
deriving DecidableEq

/-- `Stroke::new`. -/
def Stroke.new (width : ℚ) (color : Color32) : Stroke := ⟨width, color⟩

/-- A `painter.circle_filled(center, radius, color)` call recorded by the
drawing sink. -/
structure CircleCmd where
  center : Pos2
  radius : ℚ
  color : Color32
deriving DecidableEq

/-- `SnapGridType` from `src/ui/config.rs`. -/
inductive SnapGridType where
  | Quad
  | HexPointy
  | HexFlat
deriving DecidableEq

/-- `SnapGrid` from `src/ui/config.rs`. -/
structure SnapGrid where
  size : ℚ
  grid_type : SnapGridType
  visible : Bool
  color : Option Color32
  point_size : ℚ
deriving DecidableEq

/-- `SnapGrid::quad`. -/
def SnapGrid.quad (size : ℚ) : SnapGrid :=
  ⟨size, SnapGridType.Quad, false, none, 3⟩

/-- `SnapGrid::hex_pointy`. -/
def SnapGrid.hex_pointy (size : ℚ) : SnapGrid :=
  ⟨size, SnapGridType.HexPointy, false, none, 3⟩

/-- `SnapGrid::hex_flat`. -/
def SnapGrid.hex_flat (size : ℚ) : SnapGrid :=
  ⟨size, SnapGridType.HexFlat, false, none, 3⟩

/-- `SnapGrid::with_visible`. -/
def SnapGrid.with_visible (g : SnapGrid) (visible : Bool) : SnapGrid :=
  { g with visible := visible }

/-- `SnapGrid::with_color`. -/
def SnapGrid.with_color (g : SnapGrid) (color : Color32) : SnapGrid :=
  { g with color := some color }

/-- `SnapGrid::with_point_size`. -/
def SnapGrid.with_point_size (g : SnapGrid) (size : ℚ) : SnapGrid :=
  { g with point_size := size }

/-- `SnapGrid::snap_quad`. -/
def SnapGrid.snap_quad (g : SnapGrid) (pos : Pos2) : Pos2 :=
  Pos2.new
    ((roundHalfAway (pos.x / g.size) : ℚ) * g.size)
    ((roundHalfAway (pos.y / g.size) : ℚ) * g.size)

/-- `SnapGrid::snap_hex_pointy`.  The cast `row as i32` is exact here since
`row` is the result of `round`, so `(row as i32).abs()` is `row.natAbs`. -/
def SnapGrid.snap_hex_pointy (g : SnapGrid) (pos : Pos2) : Pos2 :=
  let vert_spacing := g.size * 0.8660254
  let horiz_spacing := g.size
  let row := roundHalfAway (pos.y / vert_spacing)
  let snapped_y := (row : ℚ) * vert_spacing
  let is_odd_row := row.natAbs % 2 == 1
  let x_offset := if is_odd_row then horiz_spacing / 2 else 0
  let snapped_x :=
    (roundHalfAway ((pos.x - x_offset) / horiz_spacing) : ℚ) * horiz_spacing + x_offset
  Pos2.new snapped_x snapped_y

/-- `SnapGrid::snap_hex_flat`. -/
def SnapGrid.snap_hex_flat (g : SnapGrid) (pos : Pos2) : Pos2 :=
  let horiz_spacing := g.size * 0.8660254
  let vert_spacing := g.size
  let col := roundHalfAway (pos.x / horiz_spacing)
  let snapped_x := (col : ℚ) * horiz_spacing
  let is_odd_col := col.natAbs % 2 == 1
  let y_offset := if is_odd_col then vert_spacing / 2 else 0
  let snapped_y :=
    (roundHalfAway ((pos.y - y_offset) / vert_spacing) : ℚ) * vert_spacing + y_offset
  Pos2.new snapped_x snapped_y

/-- `SnapGrid::snap`. -/
def SnapGrid.snap (g : SnapGrid) (pos : Pos2) : Pos2 :=
  match g.grid_type with
  | SnapGridType.Quad => g.snap_quad pos
  | SnapGridType.HexPointy => g.snap_hex_pointy pos
  | SnapGridType.HexFlat => g.snap_hex_flat pos

/-- `SnapGrid::stroke`. -/
def SnapGrid.stroke (g : SnapGrid) : Stroke :=
  let color := g.color.getD (Color32.from_rgba_unmultiplied 128 128 128 80)
  Stroke.new 1 color

/-- `SnapGrid::point_color`. -/
def SnapGrid.point_color (g : SnapGrid) : Color32 :=
  g.color.getD (Color32.from_rgba_unmultiplied 128 128 128 120)

/-- Rust inclusive integer range `a..=b`, as the list it iterates over. -/
def intRange (a b : ℤ) : List ℤ :=
  (List.range (b + 1 - a).toNat).map (fun i : ℕ => a + (i : ℤ))

/-- `SnapGrid::draw_quad`: the list of circle commands it issues,
in iteration order. -/
def SnapGrid.draw_quad (g : SnapGrid) (viewport : Rect) (color : Color32)
    (point_size : ℚ) : List CircleCmd :=
  let min_x := ⌊viewport.min.x / g.size⌋
  let max_x := ⌈viewport.max.x / g.size⌉
  let min_y := ⌊viewport.min.y / g.size⌋
  let max_y := ⌈viewport.max.y / g.size⌉
  (intRange min_x max_x).flatMap (fun xi : ℤ =>
    (intRange min_y max_y).map (fun yi : ℤ =>
      let x := (xi : ℚ) * g.size
      let y := (yi : ℚ) * g.size
      CircleCmd.mk (Pos2.new x y) point_size color))

/-- `SnapGrid::draw_hex_pointy`: the list of circle commands it issues,
in iteration order. -/
def SnapGrid.draw_hex_pointy (g : SnapGrid) (viewport : Rect) (color : Color32)
    (point_size : ℚ) : List CircleCmd :=
  let vert_spacing := g.size * 0.8660254
  let horiz_spacing := g.size
  let min_row := ⌊viewport.min.y / vert_spacing⌋ - 1
  let max_row := ⌈viewport.max.y / vert_spacing⌉ + 1
  let min_col := ⌊viewport.min.x / horiz_spacing⌋ - 1
  let max_col := ⌈viewport.max.x / horiz_spacing⌉ + 1
  (intRange min_row max_row).flatMap (fun row : ℤ =>
    let y := (row : ℚ) * vert_spacing
    let x_offset := if row.natAbs % 2 == 1 then horiz_spacing / 2 else 0
    (intRange min_col max_col).flatMap (fun col : ℤ =>
      let x := (col : ℚ) * horiz_spacing + x_offset
      let pos := Pos2.new x y
      if viewport.contains pos then [CircleCmd.mk pos point_size color] else []))

/-- `SnapGrid::draw_hex_flat`: the list of circle commands it issues,
in iteration order. -/
def SnapGrid.draw_hex_flat (g : SnapGrid) (viewport : Rect) (color : Color32)
    (point_size : ℚ) : List CircleCmd :=
  let horiz_spacing := g.size * 0.8660254
  let vert_spacing := g.size
  let min_col := ⌊viewport.min.x / horiz_spacing⌋ - 1
  let max_col := ⌈viewport.max.x / horiz_spacing⌉ + 1
  let min_row := ⌊viewport.min.y / vert_spacing⌋ - 1
  let max_row := ⌈viewport.max.y / vert_spacing⌉ + 1
  (intRange min_col max_col).flatMap (fun col : ℤ =>
    let x := (col : ℚ) * horiz_spacing
    let y_offset := if col.natAbs % 2 == 1 then vert_spacing / 2 else 0
    (intRange min_row max_row).flatMap (fun row : ℤ =>
      let y := (row : ℚ) * vert_spacing + y_offset
      let pos := Pos2.new x y
      if viewport.contains pos then [CircleCmd.mk pos point_size color] else []))

/-- `SnapGrid::draw`: the list of circle commands issued to the painter. -/
def SnapGrid.draw (g : SnapGrid) (viewport : Rect) : List CircleCmd :=
  if !g.visible then []
  else
    let color := g.point_color
    let point_size := g.point_size
    match g.grid_type with
    | SnapGridType.Quad => g.draw_quad viewport color point_size
    | SnapGridType.HexPointy => g.draw_hex_pointy viewport color point_size
    | SnapGridType.HexFlat => g.draw_hex_flat viewport color point_size

/-- Modelled from the spec (claim about `snap_hex_pointy`): the staged
computation as the spec words it — snapped y is
`round(p.y / (s * 0.8660254)) * (s * 0.8660254)`; the horizontal offset is
`s/2` when the absolute value of the rounded row index is odd and `0`
otherwise; snapped x is `round((p.x - offset) / s) * s + offset`. -/
def snapHexPointyStagedSpec (s : ℚ) (p : Pos2) : Pos2 :=
  let rowSpacing := s * 0.8660254
  let rowIndex := roundHalfAway (p.y / rowSpacing)
  let snappedY := (rowIndex : ℚ) * rowSpacing
  let offset := if rowIndex.natAbs % 2 == 1 then s / 2 else 0
  let snappedX := (roundHalfAway ((p.x - offset) / s) : ℚ) * s + offset
  Pos2.new snappedX snappedY

/-- Modelled from the spec (hex enumeration, pointy-top): integer row and
column bounds from the viewport edges divided by the respective spacings,
each expanded by one extra unit in both directions; a lattice position is
emitted only if it passes the exact viewport-containment test. -/
def hexPointyEnumSpec (s : ℚ) (vp : Rect) : List Pos2 :=
  let rowSpacing := s * 0.8660254
  let colSpacing := s
  (intRange (⌊vp.min.y / rowSpacing⌋ - 1) (⌈vp.max.y / rowSpacing⌉ + 1)).flatMap
    (fun row : ℤ =>
      let offset := if row.natAbs % 2 == 1 then colSpacing / 2 else 0
      (intRange (⌊vp.min.x / colSpacing⌋ - 1) (⌈vp.max.x / colSpacing⌉ + 1)).flatMap
        (fun col : ℤ =>
          let p := Pos2.new ((col : ℚ) * colSpacing + offset) ((row : ℚ) * rowSpacing)
          if vp.contains p then [p] else []))

/-- Modelled from the spec (hex enumeration, flat-top): mirror of the
pointy-top enumeration with x/y and row/column swapped. -/
def hexFlatEnumSpec (s : ℚ) (vp : Rect) : List Pos2 :=
  let colSpacing := s * 0.8660254
  let rowSpacing := s
  (intRange (⌊vp.min.x / colSpacing⌋ - 1) (⌈vp.max.x / colSpacing⌉ + 1)).flatMap
    (fun col : ℤ =>
      let offset := if col.natAbs % 2 == 1 then rowSpacing / 2 else 0
      (intRange (⌊vp.min.y / rowSpacing⌋ - 1) (⌈vp.max.y / rowSpacing⌉ + 1)).flatMap
        (fun row : ℤ =>
          let p := Pos2.new ((col : ℚ) * colSpacing) ((row : ℚ) * rowSpacing + offset)
          if vp.contains p then [p] else []))

/-- Modelled from the spec (square enumeration): the full cross product of
integer columns `floor(min.x/s)..=ceil(max.x/s)` with the analogous rows,
with no clipping to the viewport rectangle. -/
def quadEnumSpec (s : ℚ) (vp : Rect) : List Pos2 :=
  (intRange ⌊vp.min.x / s⌋ ⌈vp.max.x / s⌉).flatMap (fun xi : ℤ =>
    (intRange ⌊vp.min.y / s⌋ ⌈vp.max.y / s⌉).map (fun yi : ℤ =>
      Pos2.new ((xi : ℚ) * s) ((yi : ℚ) * s)))

/-- The bound stated by the spec for square enumeration: an emitted point
lies outside the viewport by at most one full cell `size` in each
direction. -/
def withinOneCell (g : SnapGrid) (vp : Rect) (cmd : CircleCmd) : Bool :=
  decide (vp.min.x - g.size ≤ cmd.center.x) &&
  decide (cmd.center.x ≤ vp.max.x + g.size) &&
  decide (vp.min.y - g.size ≤ cmd.center.y) &&
  decide (cmd.center.y ≤ vp.max.y + g.size)

theorem roundHalfAway_intCast (m : ℤ) : roundHalfAway (m : ℚ) = m := by
  unfold roundHalfAway
  split_ifs with h
  · exact round_intCast m
  · rw [← Int.cast_neg, round_intCast]; omega

theorem roundHalfAway_nearest (t : ℚ) (k : ℤ) :
    |t - (roundHalfAway t : ℚ)| ≤ |t - (k : ℚ)| := by
  unfold roundHalfAway
  split_ifs with h
  · exact round_le t k
  · have e1 : t - ((-round (-t) : ℤ) : ℚ) = -((-t) - ((round (-t) : ℤ) : ℚ)) := by
      push_cast; ring
    have e2 : t - (k : ℚ) = -((-t) - (((-k) : ℤ) : ℚ)) := by push_cast; ring
    rw [e1, e2, abs_neg, abs_neg]
    exact round_le (-t) (-k)

theorem roundHalfAway_half (t : ℚ) : |t - (roundHalfAway t : ℚ)| ≤ 1 / 2 := by
  unfold roundHalfAway
  split_ifs with h
  · exact abs_sub_round t
  · have e1 : t - ((-round (-t) : ℤ) : ℚ) = -((-t) - ((round (-t) : ℤ) : ℚ)) := by
      push_cast; ring
    rw [e1, abs_neg]
    exact abs_sub_round (-t)

theorem sub_round_ne_half (t : ℚ) : t - (round t : ℚ) ≠ 1 / 2 := by
  intro hcon
  have ht : t = (round t : ℚ) + 1 / 2 := by linarith
  have h2 : round t = round t + 1 := by
    conv_lhs => rw [ht]
    rw [round_int_add]
    norm_num [round_eq]
  omega

theorem roundHalfAway_tie (t : ℚ) (k : ℤ)
    (h : |t - (k : ℚ)| = |t - (roundHalfAway t : ℚ)|) :
    |(k : ℚ)| ≤ |(roundHalfAway t : ℚ)| := by
  by_cases hkm : k = roundHalfAway t
  · rw [hkm]
  · set m := roundHalfAway t with hm
    have hkmQ : (k : ℚ) ≠ (m : ℚ) := by exact_mod_cast hkm
    have hhalf : |t - (m : ℚ)| ≤ 1 / 2 := roundHalfAway_half t
    have hone : (1 : ℚ) ≤ |(k : ℚ) - (m : ℚ)| := by
      have h0 : k - m ≠ 0 := sub_ne_zero_of_ne hkm
      have h1 : (1 : ℤ) ≤ |k - m| := Int.one_le_abs h0
      have h2 : ((1 : ℤ) : ℚ) ≤ ((|k - m| : ℤ) : ℚ) := by exact_mod_cast h1
      rw [Int.cast_abs, Int.cast_sub, Int.cast_one] at h2
      exact h2
    have htri : |(k : ℚ) - (m : ℚ)| ≤ |t - (k : ℚ)| + |t - (m : ℚ)| := by
      have e : (k : ℚ) - (m : ℚ) = ((k : ℚ) - t) + (t - (m : ℚ)) := by ring
      rw [e]
      refine le_trans (abs_add _ _) ?_
      rw [abs_sub_comm ((k : ℚ)) t]
    have htm : |t - (m : ℚ)| = 1 / 2 := by linarith
    have htk : |t - (k : ℚ)| = 1 / 2 := by rw [h, htm]
    have hk_cases : t - (k : ℚ) = 1 / 2 ∨ t - (k : ℚ) = -(1 / 2) :=
      (abs_eq (by norm_num)).mp htk
    have hm_cases : t - (m : ℚ) = 1 / 2 ∨ t - (m : ℚ) = -(1 / 2) :=
      (abs_eq (by norm_num)).mp htm
    by_cases h0 : 0 ≤ t
    · have hmr : m = round t := by rw [hm]; unfold roundHalfAway; rw [if_pos h0]
      rcases hm_cases with hm1 | hm1
      · exfalso; apply sub_round_ne_half t; rw [← hmr]; exact hm1
      · have hmq : (m : ℚ) = t + 1 / 2 := by linarith
        rcases hk_cases with hk1 | hk1
        · have hkq : (k : ℚ) = (m : ℚ) - 1 := by linarith
          have hm0 : (0 : ℚ) < (m : ℚ) := by linarith
          have hm0Z : 0 < m := by exact_mod_cast hm0
          have hm1Q : (1 : ℚ) ≤ (m : ℚ) := by exact_mod_cast hm0Z
          rw [abs_of_nonneg (by linarith : (0 : ℚ) ≤ (k : ℚ)),
              abs_of_nonneg (by linarith : (0 : ℚ) ≤ (m : ℚ))]
          linarith
        · exact absurd (by linarith : (k : ℚ) = (m : ℚ)) hkmQ
    · have hmr : m = -round (-t) := by rw [hm]; unfold roundHalfAway; rw [if_neg h0]
      have h0Q : t < 0 := not_le.mp h0
      have hmrQ : ((round (-t) : ℤ) : ℚ) = -(m : ℚ) := by rw [hmr]; push_cast; ring
      rcases hm_cases with hm1 | hm1
      · have hmq : (m : ℚ) = t - 1 / 2 := by linarith
        rcases hk_cases with hk1 | hk1
        · exact absurd (by linarith : (k : ℚ) = (m : ℚ)) hkmQ
        · have hkq : (k : ℚ) = (m : ℚ) + 1 := by linarith
          have hmneg : (m : ℚ) < 0 := by linarith
          have hmZ : m < 0 := by exact_mod_cast hmneg
          have hmle : m ≤ -1 := by omega
          have hmleQ : (m : ℚ) ≤ -1 := by exact_mod_cast hmle
          rw [abs_of_nonpos (by linarith : (k : ℚ) ≤ 0),
              abs_of_nonpos (by linarith : (m : ℚ) ≤ 0)]
          linarith
      · exfalso
        apply sub_round_ne_half (-t)
        rw [hmrQ]
        linarith

theorem mem_intRange {a b n : ℤ} : n ∈ intRange a b ↔ a ≤ n ∧ n ≤ b := by
  unfold intRange
  rw [List.mem_map]
  constructor
  · rintro ⟨i, hi, rfl⟩
    rw [List.mem_range] at hi
    omega
  · rintro ⟨h1, h2⟩
    refine ⟨(n - a).toNat, ?_, ?_⟩
    · rw [List.mem_range]; omega
    · omega

theorem floor_mul_bound {s m : ℚ} {k : ℤ} (hs : 0 < s) (hk : ⌊m / s⌋ ≤ k) :
    m - s ≤ (k : ℚ) * s := by
  have h1 : m / s - 1 < (⌊m / s⌋ : ℚ) := Int.sub_one_lt_floor _
  have h2 : ((⌊m / s⌋ : ℤ) : ℚ) ≤ (k : ℚ) := by exact_mod_cast hk
  have h3 : m / s - 1 < (k : ℚ) := lt_of_lt_of_le h1 h2
  have h4 : (m / s - 1) * s < (k : ℚ) * s := mul_lt_mul_of_pos_right h3 hs
  have h5 : (m / s - 1) * s = m - s := by field_simp
  linarith

theorem ceil_mul_bound {s M : ℚ} {k : ℤ} (hs : 0 < s) (hk : k ≤ ⌈M / s⌉) :
    (k : ℚ) * s ≤ M + s := by
  have h1 : (⌈M / s⌉ : ℚ) < M / s + 1 := Int.ceil_lt_add_one _
  have h2 : (k : ℚ) ≤ ((⌈M / s⌉ : ℤ) : ℚ) := by exact_mod_cast hk
  have h3 : (k : ℚ) < M / s + 1 := lt_of_le_of_lt h2 h1
  have h4 : (k : ℚ) * s < (M / s + 1) * s := mul_lt_mul_of_pos_right h3 hs
  have h5 : (M / s + 1) * s = M + s := by field_simp
  linarith

theorem nearest_multiple_spec (s c : ℚ) (hs : 0 < s) :
    (∀ k : ℤ, |c - (roundHalfAway (c / s) : ℚ) * s| ≤ |c - (k : ℚ) * s|) ∧
    (∀ k : ℤ, |c - (k : ℚ) * s| = |c - (roundHalfAway (c / s) : ℚ) * s| →
      |(k : ℚ)| ≤ |(roundHalfAway (c / s) : ℚ)|) := by
  have hsne : s ≠ 0 := ne_of_gt hs
  have habs : ∀ k : ℤ, |c - (k : ℚ) * s| = |c / s - (k : ℚ)| * s := by
    intro k
    have key : c - (k : ℚ) * s = (c / s - (k : ℚ)) * s := by
      rw [sub_mul, div_mul_cancel₀ c hsne]
    rw [key, abs_mul, abs_of_pos hs]
  constructor
  · intro k
    rw [habs k, habs (roundHalfAway (c / s))]
    exact mul_le_mul_of_nonneg_right (roundHalfAway_nearest (c / s) k) (le_of_lt hs)
  · intro k hk
    rw [habs k, habs (roundHalfAway (c / s))] at hk
    have h2 : |c / s - (k : ℚ)| = |c / s - (roundHalfAway (c / s) : ℚ)| :=
      mul_right_cancel₀ hsne hk
    exact roundHalfAway_tie (c / s) k h2


theorem roundHalfAway_pos_eval {q : ℚ} {n : ℤ} (h0 : 0 ≤ q)
    (h1 : (n : ℚ) ≤ q + 1 / 2) (h2 : q + 1 / 2 < n + 1) : roundHalfAway q = n := by
  unfold roundHalfAway
  rw [if_pos h0, round_eq]
  exact Int.floor_eq_iff.mpr ⟨h1, h2⟩

theorem roundHalfAway_neg_eval {q : ℚ} {n : ℤ} (h0 : ¬0 ≤ q)
    (h1 : ((-n : ℤ) : ℚ) ≤ -q + 1 / 2) (h2 : -q + 1 / 2 < (-n : ℤ) + 1) :
    roundHalfAway q = n := by
  unfold roundHalfAway
  rw [if_neg h0, round_eq]
  rw [Int.floor_eq_iff.mpr ⟨h1, h2⟩]
  omega

/-- C1: for every finite point `p` and positive spacing `s`, square-lattice
snap returns the point whose x and y coordinates are each independently the
nearest multiple of `s` to the corresponding coordinate of `p` (ties, i.e.
equidistant multiples, resolved toward the quotient of larger absolute
value, which is rounding away from zero on the quotient); in particular
`snap((12.5, 0))` with spacing 25 returns `(25, 0)`. -/
theorem snap_quad_nearest_multiple (s : ℚ) (p : Pos2) (hs : 0 < s) :
    (∃ mx : ℤ, ((SnapGrid.quad s).snap p).x = (mx : ℚ) * s ∧
      (∀ k : ℤ, |p.x - (mx : ℚ) * s| ≤ |p.x - (k : ℚ) * s|) ∧
      ∀ k : ℤ, |p.x - (k : ℚ) * s| = |p.x - (mx : ℚ) * s| → |(k : ℚ)| ≤ |(mx : ℚ)|) ∧
    (∃ my : ℤ, ((SnapGrid.quad s).snap p).y = (my : ℚ) * s ∧
      (∀ k : ℤ, |p.y - (my : ℚ) * s| ≤ |p.y - (k : ℚ) * s|) ∧
      ∀ k : ℤ, |p.y - (k : ℚ) * s| = |p.y - (my : ℚ) * s| → |(k : ℚ)| ≤ |(my : ℚ)|) ∧
    (SnapGrid.quad 25).snap (Pos2.new 12.5 0) = Pos2.new 25 0 := by
  refine ⟨⟨roundHalfAway (p.x / s), rfl, (nearest_multiple_spec s p.x hs).1,
      (nearest_multiple_spec s p.x hs).2⟩,
    ⟨roundHalfAway (p.y / s), rfl, (nearest_multiple_spec s p.y hs).1,
      (nearest_multiple_spec s p.y hs).2⟩, ?_⟩
  have e1 : roundHalfAway ((12.5 : ℚ) / 25) = 1 :=
    roundHalfAway_pos_eval (by norm_num) (by norm_num) (by norm_num)
  have e0 : roundHalfAway ((0 : ℚ) / 25) = 0 :=
    roundHalfAway_pos_eval (by norm_num) (by norm_num) (by norm_num)
  show Pos2.new ((roundHalfAway ((12.5 : ℚ) / 25) : ℚ) * 25)
      ((roundHalfAway ((0 : ℚ) / 25) : ℚ) * 25) = Pos2.new 25 0
  rw [e1, e0]
  norm_num [Pos2.new]

theorem snap_quad_nearest_multiple_witness :
    (0 : ℚ) < 25 ∧
      (SnapGrid.quad 25).snap (Pos2.new 12.5 0) = Pos2.new 25 0 :=
  ⟨by norm_num, (snap_quad_nearest_multiple 25 (Pos2.new 12.5 0) (by norm_num)).2.2⟩

/-- C7 counterexample: with spacing 25 on the square lattice,
`snap((12.6, -12.6))` does not return `(0, -25)` (the claimed value):
`12.6 / 25 = 0.504` rounds to `1`, so the x coordinate is `25`, not `0`. -/
theorem snap_quad_12_6_ne_claimed :
    (SnapGrid.quad 25).snap (Pos2.new 12.6 (-12.6)) ≠ Pos2.new 0 (-25) := by
  have ep : roundHalfAway ((12.6 : ℚ) / 25) = 1 :=
    roundHalfAway_pos_eval (by norm_num) (by norm_num) (by norm_num)
  have en : roundHalfAway ((-12.6 : ℚ) / 25) = -1 :=
    roundHalfAway_neg_eval (by norm_num) (by norm_num) (by norm_num)
  show Pos2.new ((roundHalfAway ((12.6 : ℚ) / 25) : ℚ) * 25)
      ((roundHalfAway ((-12.6 : ℚ) / 25) : ℚ) * 25) ≠ Pos2.new 0 (-25)
  rw [ep, en]
  norm_num [Pos2.new]

/-- C7 amended: with spacing 25 on the square lattice,
`snap((12.6, -12.6))` returns `(25, -25)`. -/
theorem snap_quad_12_6 :
    (SnapGrid.quad 25).snap (Pos2.new 12.6 (-12.6)) = Pos2.new 25 (-25) := by
  have ep : roundHalfAway ((12.6 : ℚ) / 25) = 1 :=
    roundHalfAway_pos_eval (by norm_num) (by norm_num) (by norm_num)
  have en : roundHalfAway ((-12.6 : ℚ) / 25) = -1 :=
    roundHalfAway_neg_eval (by norm_num) (by norm_num) (by norm_num)
  show Pos2.new ((roundHalfAway ((12.6 : ℚ) / 25) : ℚ) * 25)
      ((roundHalfAway ((-12.6 : ℚ) / 25) : ℚ) * 25) = Pos2.new 25 (-25)
  rw [ep, en]
  norm_num [Pos2.new]

/-- C8: when the grid's `visible` flag is false, `draw` issues no draw
calls to the drawing sink, for every viewport and any grid configuration. -/
theorem draw_invisible (g : SnapGrid) (viewport : Rect)
    (h : g.visible = false) : g.draw viewport = [] := by
  simp [SnapGrid.draw, h]

theorem draw_invisible_witness :
    (SnapGrid.quad 25).visible = false ∧
      (SnapGrid.quad 25).draw (Rect.mk (Pos2.new 0 0) (Pos2.new 100 100)) = [] :=
  ⟨rfl, draw_invisible (SnapGrid.quad 25) (Rect.mk (Pos2.new 0 0) (Pos2.new 100 100)) rfl⟩

/-- C9: `snap` depends only on the `size` and `grid_type` fields: two grids
that agree on those but differ arbitrarily in `visible`, `color` and
`point_size` snap every point identically. -/
theorem snap_independent_of_styling (size : ℚ) (gt : SnapGridType)
    (v1 v2 : Bool) (c1 c2 : Option Color32) (ps1 ps2 : ℚ) (p : Pos2) :
    (SnapGrid.mk size gt v1 c1 ps1).snap p = (SnapGrid.mk size gt v2 c2 ps2).snap p := by
  cases gt <;> rfl

/-- C10: the stroke accessor returns a stroke of width exactly 1 whose color
is the custom color when one is set and otherwise the default gray
`(128,128,128,80)`, whose alpha 80 is strictly lower than the alpha 120 of
the default gray `(128,128,128,120)` returned by the point-color accessor;
the point-color accessor likewise returns the custom color when set, so a
custom color makes both accessors return the identical value. -/
theorem stroke_point_color_correct (g : SnapGrid) :
    g.stroke.width = 1 ∧
    (g.color = none →
      g.stroke.color = Color32.from_rgba_unmultiplied 128 128 128 80 ∧
      g.point_color = Color32.from_rgba_unmultiplied 128 128 128 120 ∧
      g.stroke.color.a < g.point_color.a) ∧
    (∀ c : Color32, g.color = some c →
      g.stroke.color = c ∧ g.point_color = c) := by
  refine ⟨rfl, ?_, ?_⟩
  · intro h
    simp [SnapGrid.stroke, SnapGrid.point_color, h, Stroke.new,
      Color32.from_rgba_unmultiplied]
  · intro c h
    simp [SnapGrid.stroke, SnapGrid.point_color, h, Stroke.new]

theorem stroke_point_color_correct_witness :
    ((SnapGrid.quad 25).color = none ∧
      (SnapGrid.quad 25).stroke.color.a < (SnapGrid.quad 25).point_color.a) ∧
    ((SnapGrid.quad 25).with_color (Color32.from_rgba_unmultiplied 1 2 3 4)).color =
        some (Color32.from_rgba_unmultiplied 1 2 3 4) ∧
    ((SnapGrid.quad 25).with_color (Color32.from_rgba_unmultiplied 1 2 3 4)).stroke.color =
      Color32.from_rgba_unmultiplied 1 2 3 4 :=
  ⟨⟨rfl, ((stroke_point_color_correct (SnapGrid.quad 25)).2.1 rfl).2.2⟩, rfl,
    (((stroke_point_color_correct
      ((SnapGrid.quad 25).with_color (Color32.from_rgba_unmultiplied 1 2 3 4))).2.2
        (Color32.from_rgba_unmultiplied 1 2 3 4)) rfl).1⟩

/-- C2: for every finite point `p` and positive spacing `s`, pointy-top hex
snap computes its result in two stages: the snapped y is
`round(p.y / (s * 0.8660254)) * (s * 0.8660254)`; the horizontal offset is
`s/2` when the absolute value of the rounded row index is odd and `0`
otherwise; and the snapped x is `round((p.x - offset) / s) * s + offset`. -/
theorem snap_hex_pointy_staged (g : SnapGrid) (p : Pos2)
    (hgt : g.grid_type = SnapGridType.HexPointy) (hs : 0 < g.size) :
    g.snap p = snapHexPointyStagedSpec g.size p := by
  unfold SnapGrid.snap
  rw [hgt]
  rfl

theorem snap_hex_pointy_staged_witness :
    ((SnapGrid.hex_pointy 10).grid_type = SnapGridType.HexPointy ∧ (0 : ℚ) < (SnapGrid.hex_pointy 10).size) ∧
      (SnapGrid.hex_pointy 10).snap (Pos2.new 3 9) =
        snapHexPointyStagedSpec (SnapGrid.hex_pointy 10).size (Pos2.new 3 9) :=
  ⟨⟨rfl, by norm_num [SnapGrid.hex_pointy]⟩,
    snap_hex_pointy_staged (SnapGrid.hex_pointy 10) (Pos2.new 3 9) rfl
      (by norm_num [SnapGrid.hex_pointy])⟩

/-- C4: flat-top hex snap is the coordinate mirror of pointy-top hex snap
with x/y and row/column swapped: snapping `(x, y)` under the flat-top grid
yields `(a, b)` exactly when snapping `(y, x)` under the pointy-top grid
with the same spacing yields `(b, a)`. -/
theorem snap_hex_flat_mirror (s x y a b : ℚ) (hs : 0 < s) :
    (SnapGrid.hex_flat s).snap (Pos2.new x y) = Pos2.new a b ↔
      (SnapGrid.hex_pointy s).snap (Pos2.new y x) = Pos2.new b a := by
  have key : (SnapGrid.hex_flat s).snap (Pos2.new x y) =
      Pos2.new (((SnapGrid.hex_pointy s).snap (Pos2.new y x)).y)
        (((SnapGrid.hex_pointy s).snap (Pos2.new y x)).x) := rfl
  rcases hP : (SnapGrid.hex_pointy s).snap (Pos2.new y x) with ⟨px, py⟩
  rw [hP] at key
  rw [key]
  simp only [Pos2.new, Pos2.mk.injEq]
  tauto

theorem snap_hex_flat_mirror_witness :
    (0 : ℚ) < 10 ∧
      ((SnapGrid.hex_flat 10).snap (Pos2.new 9 3) = Pos2.new (4330127 / 500000) 5 ↔
        (SnapGrid.hex_pointy 10).snap (Pos2.new 3 9) = Pos2.new 5 (4330127 / 500000)) :=
  ⟨by norm_num, snap_hex_flat_mirror 10 9 3 (4330127 / 500000) 5 (by norm_num)⟩

/-- C3: for every finite point, every positive spacing and each of the three
lattice kinds, snapping is idempotent: `snap(snap(p)) = snap(p)`. -/
theorem snap_idempotent (g : SnapGrid) (p : Pos2) (hs : 0 < g.size) :
    g.snap (g.snap p) = g.snap p := by
  have hsne : g.size ≠ 0 := ne_of_gt hs
  have hvne : g.size * 0.8660254 ≠ 0 := mul_ne_zero hsne (by norm_num)
  have hrow : ∀ r : ℤ, roundHalfAway ((r : ℚ) * (g.size * 0.8660254) / (g.size * 0.8660254)) = r := by
    intro r
    rw [mul_div_cancel_right₀ _ hvne, roundHalfAway_intCast]
  have hcol : ∀ (n : ℤ) (off : ℚ),
      roundHalfAway (((n : ℚ) * g.size + off - off) / g.size) = n := by
    intro n off
    rw [add_sub_cancel_right, mul_div_cancel_right₀ _ hsne, roundHalfAway_intCast]
  cases hgt : g.grid_type
  case Quad =>
    simp only [SnapGrid.snap, hgt, SnapGrid.snap_quad, Pos2.new]
    rw [mul_div_cancel_right₀ _ hsne, mul_div_cancel_right₀ _ hsne,
      roundHalfAway_intCast, roundHalfAway_intCast]
  case HexPointy =>
    simp only [SnapGrid.snap, hgt, SnapGrid.snap_hex_pointy, Pos2.new]
    rw [hrow, hcol]
  case HexFlat =>
    simp only [SnapGrid.snap, hgt, SnapGrid.snap_hex_flat, Pos2.new]
    rw [hrow, hcol]

theorem snap_idempotent_witness :
    (0 : ℚ) < (SnapGrid.hex_pointy 10).size ∧
      (SnapGrid.hex_pointy 10).snap ((SnapGrid.hex_pointy 10).snap (Pos2.new 3 9)) =
        (SnapGrid.hex_pointy 10).snap (Pos2.new 3 9) :=
  ⟨by norm_num [SnapGrid.hex_pointy],
    snap_idempotent (SnapGrid.hex_pointy 10) (Pos2.new 3 9)
      (by norm_num [SnapGrid.hex_pointy])⟩

/-- C5: for either hex orientation, enumeration computes integer row and
column bounds from the viewport edges divided by the respective spacings
expanded by exactly one extra unit in both directions and emits a lattice
position only if it passes the exact containment test (the emitted centers
are exactly the spec-side bounded filtered enumeration), so every emitted
point satisfies `viewport.contains(point)`. -/
theorem hex_draw_enum (g : SnapGrid) (vp : Rect) (c : Color32) (ps : ℚ) :
    ((g.draw_hex_pointy vp c ps).map CircleCmd.center = hexPointyEnumSpec g.size vp ∧
      (g.draw_hex_flat vp c ps).map CircleCmd.center = hexFlatEnumSpec g.size vp) ∧
    ((g.draw_hex_pointy vp c ps).all (fun cmd => vp.contains cmd.center) = true ∧
      (g.draw_hex_flat vp c ps).all (fun cmd => vp.contains cmd.center) = true) := by
  refine ⟨⟨?_, ?_⟩, ?_, ?_⟩
  · simp only [SnapGrid.draw_hex_pointy, hexPointyEnumSpec, List.map_flatMap,
      apply_ite (List.map CircleCmd.center), List.map_cons, List.map_nil]
  · simp only [SnapGrid.draw_hex_flat, hexFlatEnumSpec, List.map_flatMap,
      apply_ite (List.map CircleCmd.center), List.map_cons, List.map_nil]
  · rw [List.all_eq_true]
    intro cmd hmem
    simp only [SnapGrid.draw_hex_pointy, List.mem_flatMap] at hmem
    obtain ⟨row, hrow, col, hcol, hmem⟩ := hmem
    split_ifs at hmem <;>
      first
        | (simp only [List.mem_singleton] at hmem; subst hmem; assumption)
        | simp at hmem
  · rw [List.all_eq_true]
    intro cmd hmem
    simp only [SnapGrid.draw_hex_flat, List.mem_flatMap] at hmem
    obtain ⟨col, hcol, row, hrow, hmem⟩ := hmem
    split_ifs at hmem <;>
      first
        | (simp only [List.mem_singleton] at hmem; subst hmem; assumption)
        | simp at hmem

/-- C6: square-lattice enumeration emits exactly the full cross product of
the integer columns `floor(min.x/s)..=ceil(max.x/s)` with the analogous
rows, with no clipping to the viewport rectangle, and every emitted point
lies outside the viewport by at most one full cell `s` in each direction. -/
theorem draw_quad_cross_product (g : SnapGrid) (vp : Rect) (c : Color32)
    (ps : ℚ) (hs : 0 < g.size) :
    (g.draw_quad vp c ps).map CircleCmd.center = quadEnumSpec g.size vp ∧
    (g.draw_quad vp c ps).all (withinOneCell g vp) = true := by
  constructor
  · simp only [SnapGrid.draw_quad, quadEnumSpec, List.map_flatMap, List.map_map]
    rfl
  · rw [List.all_eq_true]
    intro cmd hmem
    simp only [SnapGrid.draw_quad, List.mem_flatMap, List.mem_map] at hmem
    obtain ⟨xi, hxi, yi, hyi, rfl⟩ := hmem
    rw [mem_intRange] at hxi hyi
    simp only [withinOneCell, Bool.and_eq_true, decide_eq_true_eq]
    exact ⟨⟨⟨floor_mul_bound hs hxi.1, ceil_mul_bound hs hxi.2⟩,
      floor_mul_bound hs hyi.1⟩, ceil_mul_bound hs hyi.2⟩

theorem draw_quad_cross_product_witness :
    (0 : ℚ) < (SnapGrid.quad 25).size ∧
      (((SnapGrid.quad 25).draw_quad (Rect.mk (Pos2.new 0 0) (Pos2.new 30 30))
          (Color32.from_rgba_unmultiplied 1 2 3 4) 3).map CircleCmd.center =
        quadEnumSpec (SnapGrid.quad 25).size (Rect.mk (Pos2.new 0 0) (Pos2.new 30 30)) ∧
       ((SnapGrid.quad 25).draw_quad (Rect.mk (Pos2.new 0 0) (Pos2.new 30 30))
          (Color32.from_rgba_unmultiplied 1 2 3 4) 3).all
         (withinOneCell (SnapGrid.quad 25) (Rect.mk (Pos2.new 0 0) (Pos2.new 30 30))) = true) :=
  ⟨by norm_num [SnapGrid.quad],
    draw_quad_cross_product (SnapGrid.quad 25) (Rect.mk (Pos2.new 0 0) (Pos2.new 30 30))
      (Color32.from_rgba_unmultiplied 1 2 3 4) 3 (by norm_num [SnapGrid.quad])⟩
